import Mathlib

/-!
Shallow embedding of the booking-ledger core of the meeting-room bot
(src/meeting_bot.py).  Strings are modelled as Lean `String`s and parsed
through their underlying character lists (`String.data`); the bookings
worksheet is modelled as the list of rows below the header, as returned by
`sheet.get_all_records()`.  Datetimes are modelled as absolute minute counts
on the proleptic Gregorian calendar; all comparisons in the source are
between datetimes in the one fixed timezone, so the minute count preserves
their order.
-/

/-- One row of the bookings worksheet, keyed by the header names. -/
structure Row where
  Date : String
  Time : String
  Name : String
  TelegramID : String
deriving DecidableEq

/-- Python `str.strip()`: drop whitespace from both ends. -/
def stripChars (cs : List Char) : List Char :=
  ((cs.dropWhile Char.isWhitespace).reverse.dropWhile Char.isWhitespace).reverse

/-- Python `str.split(sep)` for a one-character separator: split at every
occurrence, keeping empty pieces. -/
def splitOnChar (sep : Char) : List Char → List (List Char)
  | [] => [[]]
  | c :: rest =>
    if c = sep then [] :: splitOnChar sep rest
    else
      match splitOnChar sep rest with
      | [] => [[c]]
      | h :: t => (c :: h) :: t

/-- Numeric value of a list of decimal digits. -/
def digitsToNat (cs : List Char) : Nat :=
  cs.foldl (fun a c => a * 10 + (c.toNat - '0'.toNat)) 0

/-- Python `int(s)`: surrounding whitespace stripped, an optional sign,
then a nonempty run of decimal digits; anything else raises (`none`). -/
def pythonInt (cs : List Char) : Option Int :=
  match stripChars cs with
  | '-' :: rest =>
    if !rest.isEmpty && rest.all Char.isDigit then
      some (-(digitsToNat rest : Int))
    else none
  | '+' :: rest =>
    if !rest.isEmpty && rest.all Char.isDigit then
      some (digitsToNat rest : Int)
    else none
  | rest =>
    if !rest.isEmpty && rest.all Char.isDigit then
      some (digitsToNat rest : Int)
    else none

/-- `time_to_minutes`: `h, m = map(int, time_str.split(":")); h * 60 + m`.
The unpacking demands exactly two parts; a failure anywhere raises. -/
def time_to_minutes (cs : List Char) : Option Int :=
  match splitOnChar ':' cs with
  | [h, m] => do
      let hv ← pythonInt h
      let mv ← pythonInt m
      pure (hv * 60 + mv)
  | _ => none

/-- `is_overlapping`: `not (new_end <= existing_start or new_start >= existing_end)`. -/
def is_overlapping (existing_start existing_end new_start new_end : Int) : Bool :=
  !(decide (new_end ≤ existing_start) || decide (new_start ≥ existing_end))

/-- The `time_str.split("-")` plus `time_to_minutes(part.strip())` steps used
by `save_booking` on its argument and on each stored `Time` cell. -/
def parseRange (time_str : String) : Option (Int × Int) :=
  match splitOnChar '-' time_str.data with
  | [s, e] => do
      let ns ← time_to_minutes (stripChars s)
      let ne ← time_to_minutes (stripChars e)
      pure (ns, ne)
  | _ => none

/-- The same-date overlap scan loop of `save_booking`: return at the first
overlapping parseable row; skip rows whose `Time` fails to parse. -/
def overlap_scan (date_str : String) (new_start new_end : Int) : List Row → Bool
  | [] => false
  | row :: rest =>
    if row.Date = date_str then
      match parseRange row.Time with
      | some (es, ee) =>
        if is_overlapping es ee new_start new_end then true
        else overlap_scan date_str new_start new_end rest
      | none => overlap_scan date_str new_start new_end rest
    else overlap_scan date_str new_start new_end rest

/-- `save_booking`: parse the new range (`"invalid"` on failure), scan all
current rows with the same date for an overlap (`"overlap"`, no mutation),
otherwise append the new row and return `"success"`. -/
def save_booking (date_str time_str name telegram_id : String)
    (records : List Row) : String × List Row :=
  match parseRange time_str with
  | none => ("invalid", records)
  | some (ns, ne) =>
    if overlap_scan date_str ns ne records then ("overlap", records)
    else ("success", records ++ [⟨date_str, time_str, name, telegram_id⟩])

theorem overlap_scan_iff (date_str : String) (ns ne : Int) (records : List Row) :
    overlap_scan date_str ns ne records = true ↔
      ∃ row ∈ records, row.Date = date_str ∧ ∃ es ee,
        parseRange row.Time = some (es, ee) ∧ is_overlapping es ee ns ne = true := by
  induction records with
  | nil => simp [overlap_scan]
  | cons r rest ih =>
    unfold overlap_scan
    by_cases hd : r.Date = date_str
    · rw [if_pos hd]
      cases hp : parseRange r.Time with
      | none =>
        rw [ih]
        constructor
        · rintro ⟨row, hm, h⟩; exact ⟨row, List.mem_cons_of_mem _ hm, h⟩
        · rintro ⟨row, hm, hrd, es, ee, hre, hov⟩
          rcases List.mem_cons.mp hm with h | h
          · subst h; rw [hp] at hre; exact absurd hre (by simp)
          · exact ⟨row, h, hrd, es, ee, hre, hov⟩
      | some p =>
        obtain ⟨es, ee⟩ := p
        dsimp only
        by_cases hov : is_overlapping es ee ns ne = true
        · rw [if_pos hov]
          exact ⟨fun _ => ⟨r, List.mem_cons_self r rest, hd, es, ee, hp, hov⟩,
            fun _ => rfl⟩
        · rw [if_neg hov, ih]
          constructor
          · rintro ⟨row, hm, h⟩; exact ⟨row, List.mem_cons_of_mem _ hm, h⟩
          · rintro ⟨row, hm, hrd, es', ee', hre, hov'⟩
            rcases List.mem_cons.mp hm with h | h
            · subst h; rw [hp] at hre
              obtain ⟨h1, h2⟩ : es = es' ∧ ee = ee' := by
                injection hre with h; injection h with h1 h2; exact ⟨h1, h2⟩
              subst h1; subst h2; exact absurd hov' hov
            · exact ⟨row, h, hrd, es', ee', hre, hov'⟩
    · rw [if_neg hd, ih]
      constructor
      · rintro ⟨row, hm, h⟩; exact ⟨row, List.mem_cons_of_mem _ hm, h⟩
      · rintro ⟨row, hm, hrd, h⟩
        rcases List.mem_cons.mp hm with h' | h'
        · subst h'; exact absurd hrd hd
        · exact ⟨row, h', hrd, h⟩

/-- C10: the overlap test is symmetric in the two ranges, and two ranges
overlap exactly when neither ends at or before the other starts. -/
theorem is_overlapping_symm (s1 e1 s2 e2 : Int) :
    is_overlapping s1 e1 s2 e2 = is_overlapping s2 e2 s1 e1 ∧
      (is_overlapping s1 e1 s2 e2 = true ↔ ¬(e2 ≤ s1 ∨ e1 ≤ s2)) := by
  constructor
  · simp only [is_overlapping, ge_iff_le]
    rw [Bool.or_comm]
  · simp only [is_overlapping, ge_iff_le]
    simp only [Bool.not_eq_true', Bool.not_eq_false', Bool.not_or,
      Bool.and_eq_true, Bool.not_eq_true, decide_eq_false_iff_not,
      Bool.not_eq_eq_eq_not, Bool.not_true]
    tauto

/-- C2: with a well-formed new time range, `save_booking` returns
`"overlap"` and leaves the table unchanged exactly when some existing row
with the same date string has a parseable range overlapping the new one;
otherwise it appends exactly the one new row and returns `"success"`. -/
theorem save_booking_spec (date_str time_str name telegram_id : String)
    (records : List Row) (ns ne : Int)
    (hparse : parseRange time_str = some (ns, ne)) :
    ((∃ row ∈ records, row.Date = date_str ∧ ∃ es ee,
        parseRange row.Time = some (es, ee) ∧ is_overlapping es ee ns ne = true) →
      save_booking date_str time_str name telegram_id records = ("overlap", records)) ∧
    ((¬ ∃ row ∈ records, row.Date = date_str ∧ ∃ es ee,
        parseRange row.Time = some (es, ee) ∧ is_overlapping es ee ns ne = true) →
      save_booking date_str time_str name telegram_id records =
        ("success", records ++ [⟨date_str, time_str, name, telegram_id⟩])) := by
  constructor
  · intro hex
    have h := (overlap_scan_iff date_str ns ne records).mpr hex
    simp [save_booking, hparse, h]
  · intro hnex
    have h : overlap_scan date_str ns ne records = false := by
      rw [Bool.eq_false_iff]
      intro hsc
      exact hnex ((overlap_scan_iff date_str ns ne records).mp hsc)
    simp [save_booking, hparse, h]

/-- C2 witness: the spec's scenario on 25/12/2025 — an overlapping request
is refused without mutation, an adjacent one is appended. -/
theorem save_booking_spec_witness :
    parseRange "14:30-15:30" = some (870, 930) ∧
    save_booking "25/12/2025" "14:30-15:30" "Bob" "2"
        [⟨"25/12/2025", "14:00-15:00", "Alice", "1"⟩] =
      ("overlap", [⟨"25/12/2025", "14:00-15:00", "Alice", "1"⟩]) ∧
    save_booking "25/12/2025" "15:00-16:00" "Bob" "2"
        [⟨"25/12/2025", "14:00-15:00", "Alice", "1"⟩] =
      ("success", [⟨"25/12/2025", "14:00-15:00", "Alice", "1"⟩,
                   ⟨"25/12/2025", "15:00-16:00", "Bob", "2"⟩]) := by
  refine ⟨by decide, ?_, ?_⟩
  · exact (save_booking_spec "25/12/2025" "14:30-15:30" "Bob" "2"
      [⟨"25/12/2025", "14:00-15:00", "Alice", "1"⟩] 870 930 (by decide)).1
      ⟨⟨"25/12/2025", "14:00-15:00", "Alice", "1"⟩, by simp, by decide, 840, 900,
        by decide, by decide⟩
  · exact (save_booking_spec "25/12/2025" "15:00-16:00" "Bob" "2"
      [⟨"25/12/2025", "14:00-15:00", "Alice", "1"⟩] 900 960 (by decide)).2
      (by
        rintro ⟨row, hm, hrd, es, ee, hre, hov⟩
        have : row = ⟨"25/12/2025", "14:00-15:00", "Alice", "1"⟩ := by
          simpa using hm
        subst this
        have hes : es = 840 ∧ ee = 900 := by
          have : parseRange "14:00-15:00" = some (840, 900) := by decide
          rw [this] at hre
          injection hre with h; injection h with h1 h2
          exact ⟨h1.symm, h2.symm⟩
        obtain ⟨h1, h2⟩ := hes
        subst h1; subst h2
        exact absurd hov (by decide))

/-- Gregorian leap-year test. -/
def isLeap (y : Nat) : Bool := (y % 4 == 0 && y % 100 != 0) || y % 400 == 0

/-- Length of month `m` (1-12) in year `y`. -/
def daysInMonth (y m : Nat) : Nat :=
  if m == 2 then (if isLeap y then 29 else 28)
  else if m == 4 || m == 6 || m == 9 || m == 11 then 30
  else 31

/-- Days in the months of year `y` before month `m`. -/
def daysBeforeMonth (y m : Nat) : Nat :=
  ((List.range (m - 1)).map (fun i => daysInMonth y (i + 1))).foldl (· + ·) 0

/-- Rata-die style day number of a Gregorian date (year 1 = first year). -/
def absDays (y m d : Nat) : Nat :=
  365 * (y - 1) + (y - 1) / 4 - (y - 1) / 100 + (y - 1) / 400 +
    daysBeforeMonth y m + (d - 1)

/-- Absolute timestamp in minutes; the order of these numbers is the order
of the corresponding datetimes in the bot's fixed timezone. -/
def absMinutes (y m d h mi : Nat) : Nat := absDays y m d * 1440 + h * 60 + mi

/-- A strptime numeric field of one or two digits: the leading digit run,
required to have length 1 or 2; backtracking never helps for the formats
used here because every field is followed by a non-digit. -/
def parseNum2 (cs : List Char) : Option (Nat × List Char) :=
  let p := cs.span Char.isDigit
  if 1 ≤ p.1.length ∧ p.1.length ≤ 2 then some (digitsToNat p.1, p.2) else none

/-- A single literal character of a strptime format. -/
def parseChar (c : Char) : List Char → Option (List Char)
  | x :: rest => if x = c then some rest else none
  | [] => none

/-- Whitespace in a strptime format: one or more whitespace characters. -/
def parseWs : List Char → Option (List Char)
  | x :: rest =>
    if x.isWhitespace then some (rest.dropWhile Char.isWhitespace) else none
  | [] => none

/-- `datetime.strptime(s, "%d/%m/%Y %H:%M")` as an absolute minute count:
1-2 digit day and month, exactly four digit year, whitespace, 1-2 digit
hour and minute; the values must form a real calendar date and clock time,
and the whole string must be consumed.  `none` models `ValueError`. -/
def strptime_dmy_hm (cs : List Char) : Option Nat := do
  let dp ← parseNum2 cs
  let r2 ← parseChar '/' dp.2
  let mp ← parseNum2 r2
  let r4 ← parseChar '/' mp.2
  let yp := r4.span Char.isDigit
  let r6 ← parseWs yp.2
  let hp ← parseNum2 r6
  let r8 ← parseChar ':' hp.2
  let mip ← parseNum2 r8
  let y := digitsToNat yp.1
  if yp.1.length = 4 ∧ mip.2 = [] ∧ 1 ≤ y ∧ 1 ≤ mp.1 ∧ mp.1 ≤ 12 ∧
      1 ≤ dp.1 ∧ dp.1 ≤ daysInMonth y mp.1 ∧ hp.1 ≤ 23 ∧ mip.1 ≤ 59 then
    pure (absMinutes y mp.1 dp.1 hp.1 mip.1)
  else none

/-- `datetime.strptime(s, "%d/%m/%Y")` as a day number. -/
def strptime_dmy (cs : List Char) : Option Nat := do
  let dp ← parseNum2 cs
  let r2 ← parseChar '/' dp.2
  let mp ← parseNum2 r2
  let r4 ← parseChar '/' mp.2
  let yp := r4.span Char.isDigit
  let y := digitsToNat yp.1
  if yp.1.length = 4 ∧ yp.2 = [] ∧ 1 ≤ y ∧ 1 ≤ mp.1 ∧ mp.1 ≤ 12 ∧
      1 ≤ dp.1 ∧ dp.1 ≤ daysInMonth y mp.1 then
    pure (absDays y mp.1 dp.1)
  else none

/-- `datetime.strptime(s, "%H:%M")` as minutes of the day. -/
def strptime_hm (cs : List Char) : Option Nat := do
  let hp ← parseNum2 cs
  let r2 ← parseChar ':' hp.2
  let mip ← parseNum2 r2
  if mip.2 = [] ∧ hp.1 ≤ 23 ∧ mip.1 ≤ 59 then pure (hp.1 * 60 + mip.1)
  else none

/-- The per-record parse of `auto_cleanup`: split `Time` on `"-"` (the
unpacking demands exactly two parts) and read the meeting end from
`strptime(f"{date_str} {end_time_str.strip()}", "%d/%m/%Y %H:%M")`. -/
def parseRowEnd (row : Row) : Option Nat :=
  match splitOnChar '-' row.Time.data with
  | [_, e] => strptime_dmy_hm (row.Date.data ++ [' '] ++ stripChars e)
  | _ => none

/-- The `f"{date_str} | {time_str} | {name}"` summary recorded for a
removed booking. -/
def rowSummary (row : Row) : String :=
  row.Date ++ " | " ++ row.Time ++ " | " ++ row.Name

/-- The partition loop of `auto_cleanup`: summaries of expired rows and the
kept rows, both in scan order; a row whose parse raises goes to neither. -/
def cleanupScan (now : Nat) : List Row → List String × List Row
  | [] => ([], [])
  | row :: rest =>
    let p := cleanupScan now rest
    match parseRowEnd row with
    | some e => if e < now then (rowSummary row :: p.1, p.2) else (p.1, row :: p.2)
    | none => p

/-- The header row written back by the bulk rewrite. -/
def headers : List String := ["Date", "Time", "Name", "TelegramID"]

/-- Cells of one booking row as written by the bulk rewrite. -/
def rowCells (r : Row) : List String := [r.Date, r.Time, r.Name, r.TelegramID]

/-- One operation issued against the backing sheet. -/
inductive SheetOp where
  | clear : SheetOp
  | update : List (List String) → SheetOp
deriving DecidableEq

/-- Effect of a sheet operation on the full cell table (`update` writes the
block starting at A1, which after a clear is the whole table). -/
def applySheetOp (_table : List (List String)) : SheetOp → List (List String)
  | SheetOp.clear => []
  | SheetOp.update data => data

/-- The sequence of store operations `auto_cleanup` issues: none when no
record expired, otherwise `sheet.clear()` followed by
`sheet.update("A1", headers :: kept rows)`. -/
def auto_cleanup_ops (now : Nat) (records : List Row) : List SheetOp :=
  if (cleanupScan now records).1.isEmpty then []
  else [SheetOp.clear,
        SheetOp.update (headers :: (cleanupScan now records).2.map rowCells)]

/-- Every cell-table state a concurrent reader could observe while
`auto_cleanup` runs, starting from the pre-cleanup table. -/
def auto_cleanup_states (now : Nat) (records : List Row) :
    List (List (List String)) :=
  (auto_cleanup_ops now records).scanl applySheetOp (headers :: records.map rowCells)

/-- The booking records present once `auto_cleanup` has run. -/
def auto_cleanup_records (now : Nat) (records : List Row) : List Row :=
  if (cleanupScan now records).1.isEmpty then records
  else (cleanupScan now records).2

theorem cleanupScan_fst (now : Nat) (records : List Row) :
    (cleanupScan now records).1 = records.filterMap (fun r =>
      match parseRowEnd r with
      | some e => if e < now then some (rowSummary r) else none
      | none => none) := by
  induction records with
  | nil => rfl
  | cons r rest ih =>
    unfold cleanupScan
    cases hp : parseRowEnd r with
    | none => simpa [List.filterMap_cons, hp] using ih
    | some e =>
      by_cases he : e < now
      · simp [List.filterMap_cons, hp, he, ih]
      · simp [List.filterMap_cons, hp, he, ih]

theorem cleanupScan_snd (now : Nat) (records : List Row) :
    (cleanupScan now records).2 = records.filter (fun r =>
      match parseRowEnd r with
      | some e => decide (now ≤ e)
      | none => false) := by
  induction records with
  | nil => rfl
  | cons r rest ih =>
    unfold cleanupScan
    cases hp : parseRowEnd r with
    | none => simpa [List.filter_cons, hp] using ih
    | some e =>
      by_cases he : e < now
      · have : ¬ now ≤ e := by omega
        simp [List.filter_cons, hp, he, this, ih]
      · have : now ≤ e := by omega
        simp [List.filter_cons, hp, he, this, ih]

/-- C3: after the expiry sweep, every record whose parsed end time is
strictly before `now` is absent from the table, and every record whose
parsed end time is at or after `now` is still present as the very same row
(all four field values identical). -/
theorem auto_cleanup_expiry (records : List Row) (now : Nat) (row : Row) (e : Nat)
    (hmem : row ∈ records) (hp : parseRowEnd row = some e) :
    (e < now → row ∉ auto_cleanup_records now records) ∧
    (now ≤ e → row ∈ auto_cleanup_records now records) := by
  constructor
  · intro he
    have hrem : rowSummary row ∈ (cleanupScan now records).1 := by
      rw [cleanupScan_fst]
      exact List.mem_filterMap.mpr ⟨row, hmem, by simp [hp, he]⟩
    have hne : (cleanupScan now records).1.isEmpty = false := by
      cases hE : (cleanupScan now records).1 with
      | nil => rw [hE] at hrem; simp at hrem
      | cons a l => rfl
    simp only [auto_cleanup_records, hne, Bool.false_eq_true, if_false]
    rw [cleanupScan_snd]
    intro hmem2
    have hpred := List.of_mem_filter hmem2
    simp only [hp, decide_eq_true_eq] at hpred
    omega
  · intro he
    by_cases hE : (cleanupScan now records).1.isEmpty
    · simp only [auto_cleanup_records, hE, if_true]
      exact hmem
    · simp only [auto_cleanup_records, hE, if_false]
      rw [cleanupScan_snd]
      refine List.mem_filter.mpr ⟨hmem, ?_⟩
      simp [hp, he]

/-- C3 witness: the spec scenario — a booking ending 10:00 on 01/01/2025 is
removed by a sweep at 10:05 and kept by a sweep at 09:55. -/
theorem auto_cleanup_expiry_witness :
    (⟨"01/01/2025", "09:30-10:00", "Alice", "100"⟩ : Row) ∉
      auto_cleanup_records (absMinutes 2025 1 1 10 5)
        [⟨"01/01/2025", "09:30-10:00", "Alice", "100"⟩] ∧
    (⟨"01/01/2025", "09:30-10:00", "Alice", "100"⟩ : Row) ∈
      auto_cleanup_records (absMinutes 2025 1 1 9 55)
        [⟨"01/01/2025", "09:30-10:00", "Alice", "100"⟩] := by
  constructor
  · exact (auto_cleanup_expiry _ _ _ (absMinutes 2025 1 1 10 0)
      (by decide) (by decide)).1 (by decide)
  · exact (auto_cleanup_expiry _ _ _ (absMinutes 2025 1 1 10 0)
      (by decide) (by decide)).2 (by decide)

/-- C4 counterexample: with one expired booking in the table, the sweep
issues two store operations, not one, and a concurrent reader could observe
the fully cleared table, a state equal to neither the initial nor the final
table. -/
theorem auto_cleanup_not_atomic :
    ¬ ((auto_cleanup_ops (absMinutes 2025 1 1 10 30)
        [⟨"01/01/2025", "09:00-10:00", "Alice", "100"⟩]).length ≤ 1) ∧
    ([] : List (List String)) ∈ auto_cleanup_states (absMinutes 2025 1 1 10 30)
        [⟨"01/01/2025", "09:00-10:00", "Alice", "100"⟩] ∧
    ([] : List (List String)) ≠
      headers :: [(⟨"01/01/2025", "09:00-10:00", "Alice", "100"⟩ : Row)].map rowCells ∧
    ([] : List (List String)) ≠ [headers] := by
  decide

/-- C4 amended: whenever the sweep finds at least one expired booking it
issues exactly two consecutive store operations — a full clear, then one
bulk write of the header plus all kept rows — so the observable table
states are the initial table, the cleared table, and the final table. -/
theorem auto_cleanup_two_ops (now : Nat) (records : List Row)
    (h : (cleanupScan now records).1 ≠ []) :
    auto_cleanup_ops now records =
      [SheetOp.clear,
       SheetOp.update (headers :: (cleanupScan now records).2.map rowCells)] ∧
    auto_cleanup_states now records =
      [headers :: records.map rowCells, [],
       headers :: (cleanupScan now records).2.map rowCells] := by
  have hE : (cleanupScan now records).1.isEmpty = false := by
    cases hE : (cleanupScan now records).1 with
    | nil => exact absurd hE h
    | cons a l => rfl
  have hops : auto_cleanup_ops now records =
      [SheetOp.clear,
       SheetOp.update (headers :: (cleanupScan now records).2.map rowCells)] := by
    simp only [auto_cleanup_ops, hE, Bool.false_eq_true, if_false]
  refine ⟨hops, ?_⟩
  simp only [auto_cleanup_states, hops]
  rfl

/-- C4 amended witness: the two-operation trace on a concrete expired
booking. -/
theorem auto_cleanup_two_ops_witness :
    (cleanupScan (absMinutes 2025 1 1 10 30)
        [⟨"01/01/2025", "09:00-10:00", "Alice", "100"⟩]).1 ≠ [] ∧
    auto_cleanup_states (absMinutes 2025 1 1 10 30)
        [⟨"01/01/2025", "09:00-10:00", "Alice", "100"⟩] =
      [[headers, ["01/01/2025", "09:00-10:00", "Alice", "100"]], [], [headers]] := by
  refine ⟨by decide, ?_⟩
  have h := (auto_cleanup_two_ops (absMinutes 2025 1 1 10 30)
      [⟨"01/01/2025", "09:00-10:00", "Alice", "100"⟩] (by decide)).2
  rw [h]
  decide

/-- C5: a stored row whose date or time fails to parse lands in neither the
removed summaries nor the kept rows; every removed summary comes from a
parseable expired row, and as soon as some other booking expired, the
unparsable row is absent from the rewritten table. -/
theorem cleanup_unparsable_dropped (records : List Row) (now : Nat) (row : Row)
    (hmem : row ∈ records) (hp : parseRowEnd row = none)
    (hne : (cleanupScan now records).1 ≠ []) :
    row ∉ (cleanupScan now records).2 ∧
    row ∉ auto_cleanup_records now records ∧
    (∀ s ∈ (cleanupScan now records).1, ∃ r' ∈ records,
      (∃ e, parseRowEnd r' = some e ∧ e < now) ∧ s = rowSummary r') := by
  have hkept : row ∉ (cleanupScan now records).2 := by
    rw [cleanupScan_snd]
    intro hmem2
    have hpred := List.of_mem_filter hmem2
    simp only [hp] at hpred
    exact Bool.false_ne_true hpred
  have hE : (cleanupScan now records).1.isEmpty = false := by
    cases hE : (cleanupScan now records).1 with
    | nil => exact absurd hE hne
    | cons a l => rfl
  refine ⟨hkept, ?_, ?_⟩
  · simp only [auto_cleanup_records, hE, Bool.false_eq_true, if_false]
    exact hkept
  · intro s hs
    rw [cleanupScan_fst] at hs
    obtain ⟨r', hr'mem, hr'⟩ := List.mem_filterMap.mp hs
    cases hpe : parseRowEnd r' with
    | none => rw [hpe] at hr'; exact absurd hr' (by simp)
    | some e =>
      rw [hpe] at hr'
      dsimp only at hr'
      by_cases he : e < now
      · rw [if_pos he] at hr'
        exact ⟨r', hr'mem, ⟨e, hpe, he⟩, (Option.some_inj.mp hr').symm⟩
      · rw [if_neg he] at hr'
        exact absurd hr' (by simp)

/-- C5 witness: a row with an unparsable time is silently dropped when a
sweep removes another, expired booking, and is never named in the removed
summaries. -/
theorem cleanup_unparsable_dropped_witness :
    (⟨"01/01/2025", "morning", "Mallory", "7"⟩ : Row) ∈
      ([⟨"01/01/2025", "morning", "Mallory", "7"⟩,
        ⟨"01/01/2025", "09:00-10:00", "Alice", "100"⟩] : List Row) ∧
    (⟨"01/01/2025", "morning", "Mallory", "7"⟩ : Row) ∉
      auto_cleanup_records (absMinutes 2025 1 1 10 30)
        [⟨"01/01/2025", "morning", "Mallory", "7"⟩,
         ⟨"01/01/2025", "09:00-10:00", "Alice", "100"⟩] := by
  refine ⟨by decide, ?_⟩
  exact (cleanup_unparsable_dropped _ (absMinutes 2025 1 1 10 30) _
    (by decide) (by decide) (by decide)).2.1

/-- The fixed administrator identity from the source configuration. -/
def ADMIN_ID : Nat := 171208804

/-- The four commands the bot's own /start text documents as admin-only. -/
inductive AdminCmd where
  | announceCmd | statsCmd | cleanCmd | uploaddocCmd
deriving DecidableEq

/-- /stats entry: admin gate first; a non-admin caller only receives the
authorization-denied reply; the admin path reads the stats sheet and never
touches the booking table.  The Bool records whether the denial was sent. -/
def stats (callerId : Nat) (records : List Row) : Bool × List Row :=
  if callerId ≠ ADMIN_ID then (true, records) else (false, records)

/-- /announce entry: admin gate first, same shape as /stats; the admin path
only prompts for the message text. -/
def announce (callerId : Nat) (records : List Row) : Bool × List Row :=
  if callerId ≠ ADMIN_ID then (true, records) else (false, records)

/-- /uploaddoc entry: admin gate first; the admin path only prompts for a
file and never touches the booking table. -/
def upload_doc_start (callerId : Nat) (records : List Row) : Bool × List Row :=
  if callerId ≠ ADMIN_ID then (true, records) else (false, records)

/-- /clean is wired directly to auto_cleanup, which contains no admin gate:
every caller runs the sweep against the booking table. -/
def clean (_callerId : Nat) (now : Nat) (records : List Row) : Bool × List Row :=
  (false, auto_cleanup_records now records)

/-- Dispatch of the four admin-documented commands as registered in main(). -/
def admin_dispatch (c : AdminCmd) (callerId now : Nat) (records : List Row) :
    Bool × List Row :=
  match c with
  | AdminCmd.announceCmd => announce callerId records
  | AdminCmd.statsCmd => stats callerId records
  | AdminCmd.cleanCmd => clean callerId now records
  | AdminCmd.uploaddocCmd => upload_doc_start callerId records

/-- C1: /clean violates the admin gate — a non-admin caller (id 0) invoking
/clean on a table holding one expired booking gets no authorization-denied
reply and the booking table is rewritten (the expired row is removed), while
the sibling admin command /stats does deny and leave the table alone. -/
theorem clean_unauthorized_mutates :
    (0 : Nat) ≠ ADMIN_ID ∧
    admin_dispatch AdminCmd.cleanCmd 0 (absMinutes 2025 1 1 10 30)
        [⟨"01/01/2025", "09:00-10:00", "Alice", "100"⟩] = (false, []) ∧
    ([] : List Row) ≠ [⟨"01/01/2025", "09:00-10:00", "Alice", "100"⟩] ∧
    admin_dispatch AdminCmd.statsCmd 0 (absMinutes 2025 1 1 10 30)
        [⟨"01/01/2025", "09:00-10:00", "Alice", "100"⟩] =
      (true, [⟨"01/01/2025", "09:00-10:00", "Alice", "100"⟩]) := by
  decide

/-- The per-booking parse of end_meeting: split `Time` on `"-"` into exactly
two parts and read `start_dt` and `end_dt` from
`strptime(f"{date_str} {part.strip()}", "%d/%m/%Y %H:%M")`. -/
def parseRowInterval (row : Row) : Option (Nat × Nat) :=
  match splitOnChar '-' row.Time.data with
  | [s, e] => do
      let sd ← strptime_dmy_hm (row.Date.data ++ [' '] ++ stripChars s)
      let ed ← strptime_dmy_hm (row.Date.data ++ [' '] ++ stripChars e)
      pure (sd, ed)
  | _ => none

/-- `start_dt <= now <= end_dt + timedelta(minutes=30)`; a booking whose
fields fail to parse is skipped (never active). -/
def eligibleNow (now : Nat) (row : Row) : Bool :=
  match parseRowInterval row with
  | some (s, e) => decide (s ≤ now) && decide (now ≤ e + 30)
  | none => false

/-- Replies of the /end handler. -/
inductive EndReply where
  | noBookings
  | notMeetingTime
  | ended : Row → EndReply
deriving DecidableEq

/-- end_meeting: keep the caller's rows with their sheet row numbers
(enumerate from 2); reply noBookings when there are none; otherwise delete
the first row whose interval covers now with the 30-minute grace window,
or reply notMeetingTime when none qualifies. -/
def end_meeting (callerId : String) (now : Nat) (records : List Row) :
    EndReply × List Row :=
  let user_bookings :=
    ((records.enum.map (fun p => (p.1 + 2, p.2))).filter
      (fun p => p.2.TelegramID == callerId))
  if user_bookings.isEmpty then (EndReply.noBookings, records)
  else
    match user_bookings.find? (fun p => eligibleNow now p.2) with
    | some (i, row) => (EndReply.ended row, records.eraseIdx (i - 2))
    | none => (EndReply.notMeetingTime, records)

theorem end_scan_first (callerId : String) (now : Nat) :
    ∀ (records : List Row) (k j : Nat) (row : Row),
      records.get? j = some row →
      (row.TelegramID == callerId && eligibleNow now row) = true →
      (∀ i r, i < j → records.get? i = some r →
        (r.TelegramID == callerId && eligibleNow now r) = false) →
      (((records.enumFrom k).map (fun p => (p.1 + 2, p.2))).filter
          (fun p => p.2.TelegramID == callerId)).find?
          (fun p => eligibleNow now p.2) = some (k + j + 2, row) := by
  intro records
  induction records with
  | nil => intro k j row hget; simp at hget
  | cons a rest ih =>
    intro k j row hget hpred hfirst
    cases j with
    | zero =>
      have ha : a = row := by simpa using hget
      subst ha
      have hsplit := hpred
      rw [Bool.and_eq_true] at hsplit
      simp [List.enumFrom, List.filter_cons, hsplit.1, List.find?_cons, hsplit.2]
    | succ j' =>
      have hfa : (a.TelegramID == callerId && eligibleNow now a) = false :=
        hfirst 0 a (Nat.succ_pos j') rfl
      have hget' : rest.get? j' = some row := by simpa using hget
      have hfirst' : ∀ i r, i < j' → rest.get? i = some r →
          (r.TelegramID == callerId && eligibleNow now r) = false := by
        intro i r hi hg
        exact hfirst (i + 1) r (Nat.succ_lt_succ hi) (by simpa using hg)
      have ihr := ih (k + 1) j' row hget' hpred hfirst'
      have harith : k + 1 + j' + 2 = k + (j' + 1) + 2 := by omega
      cases h1 : (a.TelegramID == callerId) with
      | false =>
        simp only [List.enumFrom, List.map_cons, List.filter_cons, h1,
          Bool.false_eq_true, if_false]
        rw [ihr, harith]
      | true =>
        have h2 : eligibleNow now a = false := by
          rw [h1, Bool.true_and] at hfa; exact hfa
        simp only [List.enumFrom, List.map_cons, List.filter_cons, h1, if_true]
        rw [List.find?_cons]
        simp only [h2, Bool.false_eq_true, if_false]
        rw [ihr, harith]

theorem end_scan_none (callerId : String) (now : Nat) :
    ∀ (records : List Row) (k : Nat),
      (∀ i r, records.get? i = some r →
        (r.TelegramID == callerId && eligibleNow now r) = false) →
      (((records.enumFrom k).map (fun p => (p.1 + 2, p.2))).filter
          (fun p => p.2.TelegramID == callerId)).find?
          (fun p => eligibleNow now p.2) = none := by
  intro records
  induction records with
  | nil => intro k _; rfl
  | cons a rest ih =>
    intro k hall
    have hfa : (a.TelegramID == callerId && eligibleNow now a) = false :=
      hall 0 a rfl
    have hall' : ∀ i r, rest.get? i = some r →
        (r.TelegramID == callerId && eligibleNow now r) = false := by
      intro i r hg
      exact hall (i + 1) r (by simpa using hg)
    cases h1 : (a.TelegramID == callerId) with
    | false =>
      simp only [List.enumFrom, List.map_cons, List.filter_cons, h1,
        Bool.false_eq_true, if_false]
      exact ih (k + 1) hall'
    | true =>
      have h2 : eligibleNow now a = false := by
        rw [h1, Bool.true_and] at hfa; exact hfa
      simp only [List.enumFrom, List.map_cons, List.filter_cons, h1, if_true]
      rw [List.find?_cons]
      simp only [h2, Bool.false_eq_true, if_false]
      exact ih (k + 1) hall'

/-- C6: end_meeting scans the caller's bookings in store order and deletes
exactly the first whose interval satisfies start <= now <= end + 30 minutes;
when the caller has no eligible booking nothing is deleted and a
no-active-meeting reply is returned; a booking ending 29 minutes ago is
still eligible and one ending 31 minutes ago is not. -/
theorem end_meeting_spec (callerId : String) (now : Nat) (records : List Row) :
    (∀ j row, records.get? j = some row →
      (row.TelegramID == callerId && eligibleNow now row) = true →
      (∀ i r, i < j → records.get? i = some r →
        (r.TelegramID == callerId && eligibleNow now r) = false) →
      end_meeting callerId now records = (EndReply.ended row, records.eraseIdx j)) ∧
    ((∀ i r, records.get? i = some r →
        (r.TelegramID == callerId && eligibleNow now r) = false) →
      (end_meeting callerId now records).2 = records ∧
      ∀ r, (end_meeting callerId now records).1 ≠ EndReply.ended r) ∧
    (∀ row s e, parseRowInterval row = some (s, e) → s ≤ now → e + 29 = now →
      eligibleNow now row = true) ∧
    (∀ row s e, parseRowInterval row = some (s, e) → e + 31 = now →
      eligibleNow now row = false) := by
  refine ⟨?_, ?_, ?_, ?_⟩
  · intro j row hget hpred hfirst
    have hfind := end_scan_first callerId now records 0 j row hget hpred hfirst
    have hne : (((records.enumFrom 0).map (fun p => (p.1 + 2, p.2))).filter
        (fun p => p.2.TelegramID == callerId)).isEmpty = false := by
      cases hub : ((records.enumFrom 0).map (fun p => (p.1 + 2, p.2))).filter
          (fun p => p.2.TelegramID == callerId) with
      | nil => rw [hub] at hfind; exact absurd hfind (by simp)
      | cons a l => rfl
    have henum : records.enum = records.enumFrom 0 := rfl
    simp only [end_meeting, henum, hne, Bool.false_eq_true, if_false, hfind]
    have : 0 + j + 2 - 2 = j := by omega
    rw [this]
  · intro hall
    have henum : records.enum = records.enumFrom 0 := rfl
    by_cases hE : (((records.enumFrom 0).map (fun p => (p.1 + 2, p.2))).filter
        (fun p => p.2.TelegramID == callerId)).isEmpty
    · have hv : end_meeting callerId now records = (EndReply.noBookings, records) := by
        simp only [end_meeting, henum, hE, if_true]
      rw [hv]
      exact ⟨rfl, fun r h => EndReply.noConfusion h⟩
    · have hfind := end_scan_none callerId now records 0 hall
      have hv : end_meeting callerId now records =
          (EndReply.notMeetingTime, records) := by
        simp only [end_meeting, henum, hE, if_false, hfind,
          Bool.false_eq_true]
      rw [hv]
      exact ⟨rfl, fun r h => EndReply.noConfusion h⟩
  · intro row s e hp hs he
    unfold eligibleNow
    rw [hp]
    dsimp only
    rw [decide_eq_true hs, decide_eq_true (show now ≤ e + 30 by omega)]
    rfl
  · intro row s e hp he
    unfold eligibleNow
    rw [hp]
    dsimp only
    rw [decide_eq_false (show ¬ now ≤ e + 30 by omega)]
    exact Bool.and_false _

/-- C6 witness: with an old booking and an active booking owned by the same
caller, /end deletes exactly the active (first eligible) one; and the 29/31
minute grace-window boundaries behave as claimed. -/
theorem end_meeting_spec_witness :
    end_meeting "100" (absMinutes 2025 1 1 10 30)
        [⟨"01/01/2025", "08:00-09:00", "Alice", "100"⟩,
         ⟨"01/01/2025", "10:00-11:00", "Alice", "100"⟩] =
      (EndReply.ended ⟨"01/01/2025", "10:00-11:00", "Alice", "100"⟩,
       [⟨"01/01/2025", "08:00-09:00", "Alice", "100"⟩]) ∧
    eligibleNow (absMinutes 2025 1 1 11 29)
      ⟨"01/01/2025", "10:00-11:00", "Alice", "100"⟩ = true ∧
    eligibleNow (absMinutes 2025 1 1 11 31)
      ⟨"01/01/2025", "10:00-11:00", "Alice", "100"⟩ = false := by
  refine ⟨?_, ?_, ?_⟩
  · exact (end_meeting_spec "100" (absMinutes 2025 1 1 10 30)
      [⟨"01/01/2025", "08:00-09:00", "Alice", "100"⟩,
       ⟨"01/01/2025", "10:00-11:00", "Alice", "100"⟩]).1 1
      ⟨"01/01/2025", "10:00-11:00", "Alice", "100"⟩ (by decide) (by decide)
      (by
        intro i r hi hg
        interval_cases i
        have : (⟨"01/01/2025", "08:00-09:00", "Alice", "100"⟩ : Row) = r := by
          simpa using hg
        subst this
        decide)
  · exact (end_meeting_spec "100" (absMinutes 2025 1 1 11 29) []).2.2.1
      ⟨"01/01/2025", "10:00-11:00", "Alice", "100"⟩
      (absMinutes 2025 1 1 10 0) (absMinutes 2025 1 1 11 0)
      (by decide) (by decide) (by decide)
  · exact (end_meeting_spec "100" (absMinutes 2025 1 1 11 31) []).2.2.2
      ⟨"01/01/2025", "10:00-11:00", "Alice", "100"⟩
      (absMinutes 2025 1 1 10 0) (absMinutes 2025 1 1 11 0)
      (by decide) (by decide)

/-- Conversation state constants from the source. -/
def CANCEL_SELECT : Int := 2

/-- ConversationHandler.END. -/
def ENDCONV : Int := -1

/-- The /book conversation's time-entry state. -/
def TIME_STATE : Int := 1

/-- The /cancel handler's listing: the caller's bookings together with their
sheet row numbers (records are enumerated from row 2, below the header). -/
def cancel_list (callerId : String) (records : List Row) : List (Nat × Row) :=
  (records.enum.map (fun p => (p.1 + 2, p.2))).filter
    (fun p => p.2.TelegramID == callerId)

/-- Replies of the cancel-selection step. -/
inductive CancelReply where
  | invalidNumber
  | invalidChoice
  | canceled : Row → CancelReply
deriving DecidableEq

/-- delete_booking_by_number: `int(user_input)` (reprompt on ValueError),
reject a choice outside `1..len(user_bookings)` (reprompt, same state),
otherwise delete the chosen booking's sheet row and end the conversation. -/
def delete_booking_by_number (user_input : String)
    (user_bookings : List (Nat × Row)) (records : List Row) :
    CancelReply × List Row × Int :=
  match pythonInt user_input.data with
  | none => (CancelReply.invalidNumber, records, CANCEL_SELECT)
  | some choice =>
    if h : 1 ≤ choice ∧ choice ≤ (user_bookings.length : Int) then
      (CancelReply.canceled (user_bookings.get ⟨(choice - 1).toNat, by omega⟩).2,
       records.eraseIdx ((user_bookings.get ⟨(choice - 1).toNat, by omega⟩).1 - 2),
       ENDCONV)
    else (CancelReply.invalidChoice, records, CANCEL_SELECT)

theorem mem_enumFrom_get? {α : Type} :
    ∀ (l : List α) (k : Nat) (p : Nat × α), p ∈ l.enumFrom k →
      k ≤ p.1 ∧ l.get? (p.1 - k) = some p.2 := by
  intro l
  induction l with
  | nil => intro k p hp; simp [List.enumFrom] at hp
  | cons a rest ih =>
    intro k p hp
    rcases List.mem_cons.mp hp with h | h
    · subst h
      exact ⟨Nat.le_refl k, by simp⟩
    · obtain ⟨h1, h2⟩ := ih (k + 1) p h
      refine ⟨by omega, ?_⟩
      have : p.1 - k = (p.1 - (k + 1)) + 1 := by omega
      rw [this]
      simpa using h2

theorem cancel_list_mem (callerId : String) (records : List Row) :
    ∀ p ∈ cancel_list callerId records, ∃ i, p.1 = i + 2 ∧
      records.get? i = some p.2 ∧ p.2.TelegramID = callerId := by
  intro p hp
  obtain ⟨hmap, hpred⟩ := List.mem_filter.mp hp
  obtain ⟨q, hq, hqe⟩ := List.mem_map.mp hmap
  obtain ⟨_, hget⟩ := mem_enumFrom_get? records 0 q hq
  refine ⟨q.1, ?_, ?_, ?_⟩
  · rw [← hqe]
  · rw [← hqe]
    simpa using hget
  · have : p.2.TelegramID == callerId := hpred
    exact eq_of_beq this

/-- C7: /cancel lists only bookings whose TelegramID is the caller's; a
non-numeric or out-of-range selection leaves the table unchanged and keeps
the conversation in the selection state; a valid selection deletes exactly
the chosen row. -/
theorem cancel_select_spec (callerId : String) (records : List Row)
    (user_input : String) :
    (∀ p ∈ cancel_list callerId records, p.2.TelegramID = callerId) ∧
    (pythonInt user_input.data = none →
      delete_booking_by_number user_input (cancel_list callerId records) records =
        (CancelReply.invalidNumber, records, CANCEL_SELECT)) ∧
    (∀ n, pythonInt user_input.data = some n →
      ¬(1 ≤ n ∧ n ≤ ((cancel_list callerId records).length : Int)) →
      delete_booking_by_number user_input (cancel_list callerId records) records =
        (CancelReply.invalidChoice, records, CANCEL_SELECT)) ∧
    (∀ n, pythonInt user_input.data = some n →
      (1 ≤ n ∧ n ≤ ((cancel_list callerId records).length : Int)) →
      ∃ i row, (cancel_list callerId records).get? (n - 1).toNat = some (i + 2, row) ∧
        records.get? i = some row ∧
        delete_booking_by_number user_input (cancel_list callerId records) records =
          (CancelReply.canceled row, records.eraseIdx i, ENDCONV)) := by
  refine ⟨?_, ?_, ?_, ?_⟩
  · intro p hp
    obtain ⟨i, _, _, hid⟩ := cancel_list_mem callerId records p hp
    exact hid
  · intro hnone
    simp only [delete_booking_by_number, hnone]
  · intro n hsome hout
    simp only [delete_booking_by_number, hsome]
    rw [dif_neg hout]
  · intro n hsome hin
    simp only [delete_booking_by_number, hsome]
    rw [dif_pos hin]
    have hlt : (n - 1).toNat < (cancel_list callerId records).length := by omega
    have hmem : (cancel_list callerId records).get ⟨(n - 1).toNat, hlt⟩ ∈
        cancel_list callerId records := List.get_mem _ _ _
    obtain ⟨i, hfst, hget, _⟩ := cancel_list_mem callerId records _ hmem
    refine ⟨i, ((cancel_list callerId records).get ⟨(n - 1).toNat, hlt⟩).2, ?_, hget, ?_⟩
    · have hpair : (cancel_list callerId records).get ⟨(n - 1).toNat, hlt⟩ =
          (i + 2, ((cancel_list callerId records).get ⟨(n - 1).toNat, hlt⟩).2) := by
        rw [← hfst]
      rw [List.get?_eq_get hlt, hpair]
    · have harith : ((cancel_list callerId records).get ⟨(n - 1).toNat, hlt⟩).1 - 2 = i := by
        omega
      rw [harith]

/-- C7 witness: for a table with one foreign and one owned booking, the
listing shows only the caller's row; inputs "x" and "5" leave the table
unchanged in the selection state; input "1" deletes exactly the owned row. -/
theorem cancel_select_spec_witness :
    (∀ p ∈ cancel_list "100"
        [⟨"02/01/2025", "08:00-09:00", "Eve", "55"⟩,
         ⟨"01/01/2025", "10:00-11:00", "Alice", "100"⟩], p.2.TelegramID = "100") ∧
    delete_booking_by_number "x"
        (cancel_list "100"
          [⟨"02/01/2025", "08:00-09:00", "Eve", "55"⟩,
           ⟨"01/01/2025", "10:00-11:00", "Alice", "100"⟩])
        [⟨"02/01/2025", "08:00-09:00", "Eve", "55"⟩,
         ⟨"01/01/2025", "10:00-11:00", "Alice", "100"⟩] =
      (CancelReply.invalidNumber,
       [⟨"02/01/2025", "08:00-09:00", "Eve", "55"⟩,
        ⟨"01/01/2025", "10:00-11:00", "Alice", "100"⟩], CANCEL_SELECT) ∧
    delete_booking_by_number "5"
        (cancel_list "100"
          [⟨"02/01/2025", "08:00-09:00", "Eve", "55"⟩,
           ⟨"01/01/2025", "10:00-11:00", "Alice", "100"⟩])
        [⟨"02/01/2025", "08:00-09:00", "Eve", "55"⟩,
         ⟨"01/01/2025", "10:00-11:00", "Alice", "100"⟩] =
      (CancelReply.invalidChoice,
       [⟨"02/01/2025", "08:00-09:00", "Eve", "55"⟩,
        ⟨"01/01/2025", "10:00-11:00", "Alice", "100"⟩], CANCEL_SELECT) ∧
    delete_booking_by_number "1"
        (cancel_list "100"
          [⟨"02/01/2025", "08:00-09:00", "Eve", "55"⟩,
           ⟨"01/01/2025", "10:00-11:00", "Alice", "100"⟩])
        [⟨"02/01/2025", "08:00-09:00", "Eve", "55"⟩,
         ⟨"01/01/2025", "10:00-11:00", "Alice", "100"⟩] =
      (CancelReply.canceled ⟨"01/01/2025", "10:00-11:00", "Alice", "100"⟩,
       [⟨"02/01/2025", "08:00-09:00", "Eve", "55"⟩], ENDCONV) := by
  refine ⟨?_, ?_, ?_, ?_⟩
  · exact (cancel_select_spec "100"
      [⟨"02/01/2025", "08:00-09:00", "Eve", "55"⟩,
       ⟨"01/01/2025", "10:00-11:00", "Alice", "100"⟩] "x").1
  · exact (cancel_select_spec "100"
      [⟨"02/01/2025", "08:00-09:00", "Eve", "55"⟩,
       ⟨"01/01/2025", "10:00-11:00", "Alice", "100"⟩] "x").2.1 (by decide)
  · exact (cancel_select_spec "100"
      [⟨"02/01/2025", "08:00-09:00", "Eve", "55"⟩,
       ⟨"01/01/2025", "10:00-11:00", "Alice", "100"⟩] "5").2.2.1 5 (by decide)
      (by decide)
  · obtain ⟨i, row, hsel, hget, hres⟩ := (cancel_select_spec "100"
      [⟨"02/01/2025", "08:00-09:00", "Eve", "55"⟩,
       ⟨"01/01/2025", "10:00-11:00", "Alice", "100"⟩] "1").2.2.2 1 (by decide)
      (by decide)
    have hsel' : (cancel_list "100"
        [⟨"02/01/2025", "08:00-09:00", "Eve", "55"⟩,
         ⟨"01/01/2025", "10:00-11:00", "Alice", "100"⟩]).get? ((1 : Int) - 1).toNat =
        some (3, ⟨"01/01/2025", "10:00-11:00", "Alice", "100"⟩) := by decide
    rw [hsel'] at hsel
    have hp := Option.some_inj.mp hsel
    have h1 : (3 : Nat) = i + 2 := congrArg Prod.fst hp
    have h2 : (⟨"01/01/2025", "10:00-11:00", "Alice", "100"⟩ : Row) = row :=
      congrArg Prod.snd hp
    have hi : i = 1 := by omega
    rw [hi, ← h2] at hres
    exact hres

/-- An exactly-two-digit field of the time regex. -/
def parseDigits2 (cs : List Char) : Option (Nat × List Char) :=
  let p := cs.span Char.isDigit
  if p.1.length = 2 then some (digitsToNat p.1, p.2) else none

/-- `re.match(r"^\d{1,2}:\d{2}\s*-\s*\d{1,2}:\d{2}$", s)` as a Bool. -/
def time_shape (cs : List Char) : Bool :=
  (Option.isSome <| do
    let p1 ← parseNum2 cs
    let r2 ← parseChar ':' p1.2
    let p3 ← parseDigits2 r2
    let r5 ← parseChar '-' (p3.2.dropWhile Char.isWhitespace)
    let p6 ← parseNum2 (r5.dropWhile Char.isWhitespace)
    let r8 ← parseChar ':' p6.2
    let p9 ← parseDigits2 r8
    if p9.2 = [] then some () else none)

/-- Replies of the /book conversation's time step. -/
inductive TimeReply where
  | badFormat
  | badValues
  | badOrder
  | overlapReply
  | invalidReply
  | confirmed
deriving DecidableEq

/-- get_time: strip the message text; reject when the regex shape fails;
split on `"-"` and parse both halves with `strptime("%H:%M")` (reject on
ValueError); require end strictly after start; then run save_booking and
map its result.  Returns the reply, the table, and the conversation state. -/
def get_time (text : String) (date_str : String) (name : String)
    (userId : String) (records : List Row) : TimeReply × List Row × Int :=
  let time_input := stripChars text.data
  if time_shape time_input = false then (TimeReply.badFormat, records, TIME_STATE)
  else
    match splitOnChar '-' time_input with
    | [s0, e0] =>
      match strptime_hm (stripChars s0), strptime_hm (stripChars e0) with
      | some st, some en =>
        if en ≤ st then (TimeReply.badOrder, records, TIME_STATE)
        else
          match save_booking date_str (String.mk time_input) name userId records with
          | ("overlap", _) => (TimeReply.overlapReply, records, TIME_STATE)
          | ("invalid", _) => (TimeReply.invalidReply, records, TIME_STATE)
          | (_, recs2) => (TimeReply.confirmed, recs2, ENDCONV)
      | _, _ => (TimeReply.badValues, records, TIME_STATE)
    | _ => (TimeReply.badFormat, records, TIME_STATE)

/-- The accepted reading of a stripped time text: regex shape, then valid
hour (0-23) and minute (0-59) on both halves, as start and end minutes. -/
def time_range_valid (cs : List Char) : Option (Nat × Nat) :=
  if time_shape cs then
    match splitOnChar '-' cs with
    | [s0, e0] => do
        let st ← strptime_hm (stripChars s0)
        let en ← strptime_hm (stripChars e0)
        pure (st, en)
    | _ => none
  else none

/-- C8: a time text whose stripped form fails the `H:MM-H:MM` shape or the
0-23 / 0-59 value ranges, or whose end is not strictly after its start, is
rejected: the table is unchanged, the conversation stays in the time step,
and no confirmation is issued. -/
theorem get_time_rejects (text date_str name userId : String)
    (records : List Row)
    (h : time_range_valid (stripChars text.data) = none ∨
      ∃ st en, time_range_valid (stripChars text.data) = some (st, en) ∧ en ≤ st) :
    (get_time text date_str name userId records).2 = (records, TIME_STATE) ∧
    (get_time text date_str name userId records).1 ≠ TimeReply.confirmed := by
  rcases h with hnone | ⟨st, en, hsome, hord⟩
  · unfold time_range_valid at hnone
    by_cases hsh : time_shape (stripChars text.data) = true
    · rw [if_pos hsh] at hnone
      simp only [get_time]
      rw [hsh]
      simp only [Bool.true_eq_false, if_false]
      cases hsp : splitOnChar '-' (stripChars text.data) with
      | nil => exact ⟨rfl, by simp⟩
      | cons a t =>
        cases t with
        | nil => exact ⟨rfl, by simp⟩
        | cons b t2 =>
          cases t2 with
          | nil =>
            rw [hsp] at hnone
            dsimp only
            dsimp only at hnone
            cases hs1 : strptime_hm (stripChars a) with
            | none => exact ⟨rfl, by simp⟩
            | some st =>
              cases hs2 : strptime_hm (stripChars b) with
              | none => exact ⟨rfl, by simp⟩
              | some en => simp [hs1, hs2] at hnone
          | cons c t3 => exact ⟨rfl, by simp⟩
    · have hsh' : time_shape (stripChars text.data) = false :=
        Bool.eq_false_iff.mpr hsh
      simp only [get_time]
      rw [hsh']
      exact ⟨rfl, by simp⟩
  · unfold time_range_valid at hsome
    by_cases hsh : time_shape (stripChars text.data) = true
    · rw [if_pos hsh] at hsome
      simp only [get_time]
      rw [hsh]
      simp only [Bool.true_eq_false, if_false]
      cases hsp : splitOnChar '-' (stripChars text.data) with
      | nil => rw [hsp] at hsome; simp at hsome
      | cons a t =>
        cases t with
        | nil => rw [hsp] at hsome; simp at hsome
        | cons b t2 =>
          cases t2 with
          | nil =>
            rw [hsp] at hsome
            dsimp only
            dsimp only at hsome
            cases hs1 : strptime_hm (stripChars a) with
            | none => simp [hs1] at hsome
            | some st' =>
              cases hs2 : strptime_hm (stripChars b) with
              | none => simp [hs1, hs2] at hsome
              | some en' =>
                have hpair : st' = st ∧ en' = en := by
                  simp [hs1, hs2] at hsome
                  exact hsome
                dsimp only
                rw [if_pos (show en' ≤ st' by omega)]
                exact ⟨rfl, by simp⟩
          | cons c t3 => rw [hsp] at hsome; simp at hsome
    · have hsh' : time_shape (stripChars text.data) = false :=
        Bool.eq_false_iff.mpr hsh
      simp only [get_time]
      rw [hsh']
      exact ⟨rfl, by simp⟩

/-- C8 witness: "25:00-26:00" (bad hour), "9:5-10:00" (one-digit minute)
and "10:00-09:00" (end before start) are all rejected without mutation. -/
theorem get_time_rejects_witness :
    (get_time "25:00-26:00" "25/12/2025" "Bob" "2" []).2 = ([], TIME_STATE) ∧
    (get_time "9:5-10:00" "25/12/2025" "Bob" "2" []).2 = ([], TIME_STATE) ∧
    (get_time "10:00-09:00" "25/12/2025" "Bob" "2" []).2 = ([], TIME_STATE) ∧
    (get_time "10:00-09:00" "25/12/2025" "Bob" "2" []).1 ≠ TimeReply.confirmed := by
  refine ⟨?_, ?_, ?_, ?_⟩
  · exact (get_time_rejects "25:00-26:00" "25/12/2025" "Bob" "2" []
      (Or.inl (by decide))).1
  · exact (get_time_rejects "9:5-10:00" "25/12/2025" "Bob" "2" []
      (Or.inl (by decide))).1
  · exact (get_time_rejects "10:00-09:00" "25/12/2025" "Bob" "2" []
      (Or.inr ⟨600, 540, by decide, by omega⟩)).1
  · exact (get_time_rejects "10:00-09:00" "25/12/2025" "Bob" "2" []
      (Or.inr ⟨600, 540, by decide, by omega⟩)).2

/-- The sort key of sort_records_old_to_new: `(date, start time)` when both
parse (`strptime("%d/%m/%Y")` on the date and `strptime("%H:%M")` on the
part of `Time` before the first "-", stripped); `none` models the
`(datetime.max, datetime.max)` key used when any parse raises. -/
def sort_key (row : Row) : Option (Nat × Nat) := do
  let d ← strptime_dmy row.Date.data
  let t ← strptime_hm (if row.Time.data.contains '-' then
      stripChars ((splitOnChar '-' row.Time.data).headD [])
    else stripChars row.Time.data)
  pure (d, t)

/-- Comparison of the optional keys: a missing key behaves as the maximum
(datetime.max sorts after every parseable datetime). -/
def key_le : Option (Nat × Nat) → Option (Nat × Nat) → Bool
  | none, none => true
  | none, some _ => false
  | some _, none => true
  | some (d1, t1), some (d2, t2) =>
    decide (d1 < d2) || (d1 == d2 && decide (t1 ≤ t2))

/-- sort_records_old_to_new: a stable sort of the records by the key. -/
def sort_records_old_to_new (records : List Row) : List Row :=
  records.mergeSort (fun a b => key_le (sort_key a) (sort_key b))

theorem key_le_trans (a b c : Option (Nat × Nat)) :
    key_le a b = true → key_le b c = true → key_le a c = true := by
  rcases a with _ | ⟨d1, t1⟩ <;> rcases b with _ | ⟨d2, t2⟩ <;>
    rcases c with _ | ⟨d3, t3⟩ <;> simp [key_le] <;> omega

theorem key_le_total (a b : Option (Nat × Nat)) :
    (key_le a b || key_le b a) = true := by
  rcases a with _ | ⟨d1, t1⟩ <;> rcases b with _ | ⟨d2, t2⟩ <;>
    simp [key_le] <;> omega

/-- C9: the sorted view is a permutation of the input, its rows are in
non-decreasing key order (lexicographic on parsed date then start time),
and a row with an unparsable date or time never precedes a parseable one:
every row after an unparsable row is unparsable too. -/
theorem sort_records_spec (records : List Row) :
    (sort_records_old_to_new records).Perm records ∧
    (sort_records_old_to_new records).Pairwise
      (fun a b => key_le (sort_key a) (sort_key b) = true) ∧
    (sort_records_old_to_new records).Pairwise
      (fun a b => sort_key a = none → sort_key b = none) := by
  have hsorted : (sort_records_old_to_new records).Pairwise
      (fun a b => key_le (sort_key a) (sort_key b) = true) :=
    List.sorted_mergeSort
      (fun a b c hab hbc => key_le_trans (sort_key a) (sort_key b) (sort_key c) hab hbc)
      (fun a b => key_le_total (sort_key a) (sort_key b)) records
  refine ⟨List.mergeSort_perm records _, hsorted, ?_⟩
  refine hsorted.imp ?_
  intro a b hab hna
  cases hb : sort_key b with
  | none => rfl
  | some k =>
    rw [hna, hb] at hab
    simp [key_le] at hab
